import Mathlib

/-!
Shallow embedding of the `fastapi_views.filters` subsystem and of the
cursor helpers in `fastapi_views/pagination.py`.

Python strings are modelled as Lean `String`; all string operations the
source uses (`<`, `in`, `lower`, `lstrip`, `startswith`, `partition`) are
re-implemented structurally over `String.data : List Char` so that every
definition evaluates by kernel reduction.  Python runtime values that flow
through filter operations are modelled by the inductive `Value`
(`None`, `bool`, `int`, `str`, `list`); operations that raise in Python
(`TypeError`, `AttributeError`, `ValueError`) return `Except String`.
-/

/-- Comparison of two characters by code point, as Python compares the
characters of a string. -/
def charLt (a b : Char) : Bool := a.toNat < b.toNat

/-- Lexicographic comparison of two character sequences by code point:
the Python `<` on strings. -/
def charSeqLt : List Char → List Char → Bool
  | [], [] => false
  | [], _ :: _ => true
  | _ :: _, [] => false
  | a :: as, b :: bs =>
    if charLt a b then true
    else if a.toNat == b.toNat then charSeqLt as bs
    else false

/-- Python `a < b` on strings. -/
def strLt (a b : String) : Bool := charSeqLt a.data b.data

/-- Contiguous-subsequence test: Python `needle in hay` on strings. -/
def charSeqContains (needle : List Char) : List Char → Bool
  | [] => needle.isEmpty
  | c :: cs => needle.isPrefixOf (c :: cs) || charSeqContains needle cs

/-- Python `needle in hay` on strings (substring containment). -/
def strContains (hay needle : String) : Bool := charSeqContains needle.data hay.data

/-- ASCII lower-casing of one character; Python `str.lower` restricted to
ASCII, which is all the claims exercise. -/
def lowerChar (c : Char) : Char :=
  if 65 ≤ c.toNat ∧ c.toNat ≤ 90 then Char.ofNat (c.toNat + 32) else c

/-- Python `s.lower()` (ASCII fragment). -/
def strLower (s : String) : String := ⟨s.data.map lowerChar⟩

/-- Python `s.lstrip(chars)` for `chars = "+-"`: drop every leading `+` or `-`. -/
def lstripPlusMinus (s : String) : String :=
  ⟨s.data.dropWhile (fun c => c == '+' || c == '-')⟩

/-- Python `s.startswith(chars)` for the one-character needle `-`. -/
def startsWithDash (s : String) : Bool :=
  match s.data with
  | [] => false
  | c :: _ => c == '-'

/-- Locate the first occurrence of `__` in a character sequence, returning
the characters before it and the characters after it (Python
`str.partition` on separator `__`). -/
def breakDunder : List Char → Option (List Char × List Char)
  | [] => Option.none
  | '_' :: '_' :: rest => Option.some ([], rest)
  | c :: cs => (breakDunder cs).map (fun p => (c :: p.1, p.2))

/-- Python `"__" in s`. -/
def hasDunder (s : String) : Bool := (breakDunder s.data).isSome

/-- Python `s.partition("__")` restricted to the `(before, after)` pair;
when the separator is absent the pair is `(s, "")`, as in Python. -/
def partitionDunder (s : String) : String × String :=
  match breakDunder s.data with
  | Option.some (a, b) => (⟨a⟩, ⟨b⟩)
  | Option.none => (s, ⟨[]⟩)

/-- Python runtime values that appear as filter-field values. -/
inductive Value where
  | none
  | bool (b : Bool)
  | int (n : Int)
  | str (s : String)
  | list (vs : List Value)

mutual

/-- Structural equality on values; Python `==` for this value universe.
Cross-type equality is `False` in Python for every pair the claims use
(bool-versus-int promotion is not modelled). -/
def valueBeq : Value → Value → Bool
  | Value.none, Value.none => true
  | Value.bool a, Value.bool b => a == b
  | Value.int a, Value.int b => a == b
  | Value.str a, Value.str b => a == b
  | Value.list a, Value.list b => valueListBeq a b
  | _, _ => false

/-- Pointwise structural equality on lists of values. -/
def valueListBeq : List Value → List Value → Bool
  | [], [] => true
  | a :: as, b :: bs => valueBeq a b && valueListBeq as bs
  | _, _ => false

end

instance : BEq Value := ⟨valueBeq⟩

/-- Python truthiness of a value (`bool(v)`). -/
def Value.truthy : Value → Bool
  | Value.none => false
  | Value.bool b => b
  | Value.int n => n != 0
  | Value.str s => !s.data.isEmpty
  | Value.list vs => !vs.isEmpty

/-- Truthiness of an optional string, as `if self.query:` sees it:
`None` and the empty string are falsy. -/
def optStrTruthy : Option String → Bool
  | Option.none => false
  | Option.some s => !s.data.isEmpty

/-- Strict `<` on values used as sort keys.  Python raises `TypeError`
on cross-type comparison; the sort passes in the claims only ever compare
keys drawn from one field of one object type, so the cross-type case
(here `false`) is never reached. -/
def pyLtB : Value → Value → Bool
  | Value.int a, Value.int b => a < b
  | Value.str a, Value.str b => strLt a b
  | Value.bool a, Value.bool b => !a && b
  | _, _ => false

/-- Python `operator.eq`. -/
def pyEq (a b : Value) : Except String Value := Except.ok (Value.bool (valueBeq a b))

/-- Python `operator.ne`. -/
def pyNe (a b : Value) : Except String Value := Except.ok (Value.bool (!valueBeq a b))

/-- Python `operator.lt`; `TypeError` on unsupported operand types. -/
def pyLt : Value → Value → Except String Value
  | Value.int a, Value.int b => Except.ok (Value.bool (a < b))
  | Value.str a, Value.str b => Except.ok (Value.bool (strLt a b))
  | _, _ => Except.error ("TypeError: unsupported operand types for comparison")

/-- Python `operator.le`. -/
def pyLe : Value → Value → Except String Value
  | Value.int a, Value.int b => Except.ok (Value.bool (a ≤ b))
  | Value.str a, Value.str b => Except.ok (Value.bool (strLt a b || a == b))
  | _, _ => Except.error ("TypeError: unsupported operand types for comparison")

/-- Python `operator.gt`. -/
def pyGt : Value → Value → Except String Value
  | Value.int a, Value.int b => Except.ok (Value.bool (b < a))
  | Value.str a, Value.str b => Except.ok (Value.bool (strLt b a))
  | _, _ => Except.error ("TypeError: unsupported operand types for comparison")

/-- Python `operator.ge`. -/
def pyGe : Value → Value → Except String Value
  | Value.int a, Value.int b => Except.ok (Value.bool (b ≤ a))
  | Value.str a, Value.str b => Except.ok (Value.bool (strLt b a || a == b))
  | _, _ => Except.error ("TypeError: unsupported operand types for comparison")

/-- Python `operator.contains a b`, that is `b in a`. -/
def pyContains : Value → Value → Except String Value
  | Value.str x, Value.str y => Except.ok (Value.bool (strContains x y))
  | Value.str _, _ => Except.error ("TypeError: in <string> requires string as left operand")
  | Value.list xs, b => Except.ok (Value.bool (xs.contains b))
  | _, _ => Except.error ("TypeError: argument is not iterable")

/-!
Embedding of `fastapi_views/filters/operations.py`.

The source declares the dataclasses `FieldOperation` (field plus
`set_prefix`), `FilterOperation` (adds `operator`, `values`),
`SortOperation` (adds `desc`) and the recursive `LogicalOperation`.
They are modelled as one inductive; `operator` is carried as the raw
string token, exactly as the dataclasses do (the `Literal` annotations
are not enforced at runtime).
-/

/-- One operation produced by a filter schema: a leaf comparison
(`FilterOperation`), a sort directive (`SortOperation`), or a boolean
combination (`LogicalOperation`). -/
inductive Operation where
  | filter (field : String) (operator : String) (values : Value)
  | sort (field : String) (desc : Bool)
  | logical (operator : String) (values : List Operation)

mutual

/-- Operation `set_prefix` from operations.py: `FieldOperation.set_prefix`
rewrites `field` to `f"{prefix}__{field}"`; `LogicalOperation.set_prefix`
propagates to every child.  The Python method mutates in place; the
embedding returns the rewritten operation. -/
def prefixed (p : String) : Operation → Operation
  | Operation.filter f op v => Operation.filter (p ++ "__" ++ f) op v
  | Operation.sort f d => Operation.sort (p ++ "__" ++ f) d
  | Operation.logical op vs => Operation.logical op (prefixedList p vs)

/-- Prefix rewriting of a list of child operations, as the loop in
`LogicalOperation.set_prefix` performs it. -/
def prefixedList (p : String) : List Operation → List Operation
  | [] => []
  | o :: os => prefixed p o :: prefixedList p os

end

/-!
Embedding of `fastapi_views/filters/models.py`.

A schema instance is modelled by its declared fields in declaration
order, each holding `None`, a plain value, or a nested filter schema,
plus the class-level data the capabilities consult (`special_fields`,
`search_fields`, `ordering_fields`).
-/

/-- Value of one declared schema field: `None`, a plain value, or a
nested filter schema (itself a special-field set plus declared fields). -/
inductive FieldValue where
  | null
  | val (v : Value)
  | nested (special : List String) (fields : List (String × FieldValue))

mutual

/-- Loop body of `ModelFilter.get_filters` (models.py lines 36-62): walk
the declared fields in order, skip names in `special_fields`, skip `None`
values, splice in prefix-rewritten nested filters, and otherwise emit one
`FilterOperation` derived from the `field__operator` naming convention
(default `eq`). -/
def modelFieldsOps (sp : List String) : List (String × FieldValue) → List Operation
  | [] => []
  | (n, fv) :: rest =>
    (if sp.contains n then [] else fieldContrib n fv) ++ modelFieldsOps sp rest

/-- Operations contributed by a single non-special declared field, per
`ModelFilter.get_filters`: nothing for `None`; the nested schema's
operations with `set_prefix(field_name)` applied for a nested filter;
one `FilterOperation` otherwise, splitting `field__op` names at the first
`__` via `str.partition` and defaulting the operator to `eq`. -/
def fieldContrib (n : String) : FieldValue → List Operation
  | FieldValue.null => []
  | FieldValue.val v =>
    if hasDunder n then
      [Operation.filter (partitionDunder n).1 (partitionDunder n).2 v]
    else
      [Operation.filter n ("eq") v]
  | FieldValue.nested sp2 fs2 => prefixedList n (modelFieldsOps sp2 fs2)

end

/-- Per-field contribution including the special-field guard; used to
state that `ModelFilter.get_filters` is the in-order concatenation of
per-field contributions. -/
def fieldOpsAt (sp : List String) (nf : String × FieldValue) : List Operation :=
  if sp.contains nf.1 then [] else fieldContrib nf.1 nf.2

/-- The `SearchFilter.get_filters` step (models.py lines 142-156): start
from the operations accumulated by `super().get_filters()` and, when
`query` is truthy, append one `LogicalOperation("or", ...)` wrapping one
`ilike` `FilterOperation` per search field.  `search_fields` is a Python
set; its iteration order is modelled by the list order. -/
def searchFilters (q : Option String) (sf : List String) (base : List Operation) :
    List Operation :=
  match q with
  | Option.none => base
  | Option.some s =>
    if s.data.isEmpty then base
    else
      base ++ [Operation.logical ("or")
        (sf.map (fun n => Operation.filter n ("ilike") (Value.str s)))]

/-- An instance of the composed `Filter` class
(`Filter(PaginationFilter, OrderingFilter, SearchFilter, FieldsFilter,
ModelFilter)`, models.py lines 179-189): the declared fields in
declaration order (including the special-named entries, which the model
pass skips), the class-level capability data, and the typed accessors
for the capability fields. -/
structure FilterInst where
  special : List String
  fields : List (String × FieldValue)
  query : Option String
  search_fields : List String
  sort : Option (List String)
  page : Nat
  page_size : Nat

/-- Method resolution of `get_filters()` on the composed `Filter` class:
the MRO is Filter, PaginationFilter, BasePaginationFilter, OrderingFilter,
SearchFilter, FieldsFilter, ModelFilter, BaseFilter, so the entry point is
`SearchFilter.get_filters`, whose `super()` call reaches
`ModelFilter.get_filters`, whose `super()` call reaches
`BaseFilter.get_filters` returning `[]`.  Hence: generic model-pass
operations first, then the search operation appended. -/
def FilterInst.get_filters (f : FilterInst) : List Operation :=
  searchFilters f.query f.search_fields (modelFieldsOps f.special f.fields)

/-- One `SortOperation` per sort token, as built by the loop of
`OrderingFilter.get_order_by` (models.py lines 123-134): `desc` is
`token.startswith("-")` and the field is `token.lstrip("+-")`. -/
def sortTokenOp (t : String) : Operation :=
  Operation.sort (lstripPlusMinus t) (startsWithDash t)

/-- The `OrderingFilter.get_order_by` method: empty when `sort` is unset,
otherwise one `SortOperation` per token, preserving token order. -/
def FilterInst.get_order_by (f : FilterInst) : List Operation :=
  match f.sort with
  | Option.none => []
  | Option.some ts => ts.map sortTokenOp

/-- Loop body of the `validate_sort` pydantic validator (models.py lines
108-117): raise `ValueError` at the first token whose `lstrip("+-")` is
not a declared ordering field. -/
def checkSortTokens (ordering_fields : List String) : List String → Except String Unit
  | [] => Except.ok ()
  | f :: rest =>
    if ordering_fields.contains (lstripPlusMinus f) then
      checkSortTokens ordering_fields rest
    else
      Except.error ("Unknown sort value " ++ f)

/-- The `validate_sort` field validator: `None` passes through, otherwise
every token is checked against `ordering_fields`. -/
def validate_sort (ordering_fields : List String) (v : Option (List String)) :
    Except String (Option (List String)) :=
  match v with
  | Option.none => Except.ok Option.none
  | Option.some fs => (checkSortTokens ordering_fields fs).map (fun _ => Option.some fs)

/-- Construction of a schema instance carrying the `sort` field: pydantic
runs `validate_sort` (an `after` field validator) during `__init__`, and a
`ValueError` raised there surfaces as a `ValidationError` — the instance
is never created, so an invalid `sort` list never reaches a resolver. -/
def constructFilter (special : List String) (fields : List (String × FieldValue))
    (query : Option String) (search_fields ordering_fields : List String)
    (sortArg : Option (List String)) (page page_size : Nat) :
    Except String FilterInst :=
  (validate_sort ordering_fields sortArg).map
    (fun s => ⟨special, fields, query, search_fields, s, page, page_size⟩)

/-!
Embedding of `fastapi_views/filters/resolvers/objects.py`
(`ObjectFilterResolver`).

The resolver is parametrised by a getter (Python uses
`operator.attrgetter`); the embedding takes `getter : String → α → Value`
for an object type `α`.  `resolve` on a `FilterOperation` or
`LogicalOperation` produces a predicate closure; on a `SortOperation` it
produces the keyword pair for `list.sort`.  Both outcomes are carried in
`Resolved`.
-/

variable {α : Type}

/-- Result of `ObjectFilterResolver.resolve`: a predicate closure for
filter and logical operations, or the `key`/`reverse` keyword pair for
sort operations. -/
inductive Resolved (α : Type) where
  | pred (f : α → Except String Value)
  | sortKw (key : α → Value) (reverse : Bool)

/-- Class attribute `ObjectFilterResolver.operators` (objects.py lines
24-30): the explicit entries for `is_null` (identity comparison against
`None`, direction chosen by the truthiness of the operation's values),
`like` (`operator.contains`) and `ilike` (contains on lower-cased
strings, which requires both operands to be strings). -/
def operatorsDict (name : String) : Option (Value → Value → Except String Value) :=
  if name = "is_null" then
    Option.some (fun a b =>
      Except.ok (Value.bool (if Value.truthy b then valueBeq a Value.none
        else !valueBeq a Value.none)))
  else if name = "like" then
    Option.some (fun a b => pyContains a b)
  else if name = "ilike" then
    Option.some (fun a b =>
      match a, b with
      | Value.str x, Value.str y =>
        Except.ok (Value.bool (strContains (strLower x) (strLower y)))
      | _, _ => Except.error ("AttributeError: object has no attribute lower"))
  else
    Option.none

/-- The dynamic fallback `getattr(operator, op_name)` (objects.py line
56), restricted to the operator tokens `resolve` can receive.  Python's
`operator` module defines the binary comparison functions `eq`, `ne`,
`lt`, `le`, `gt`, `ge`; it defines no attribute named `in` or `not_in`
(membership is spelled `contains`), so looking those names up raises
`AttributeError`. -/
def operatorAttr (name : String) : Option (Value → Value → Except String Value) :=
  if name = "eq" then Option.some pyEq
  else if name = "ne" then Option.some pyNe
  else if name = "lt" then Option.some pyLt
  else if name = "le" then Option.some pyLe
  else if name = "gt" then Option.some pyGt
  else if name = "ge" then Option.some pyGe
  else Option.none

/-- Operator dispatch of `ObjectFilterResolver.resolve` (objects.py lines
52-56): the class-level `operators` dict first, then
`getattr(operator, op_name)`, which raises `AttributeError` when the
module has no attribute of that name. -/
def lookupOp (name : String) : Except String (Value → Value → Except String Value) :=
  match operatorsDict name with
  | Option.some f => Except.ok f
  | Option.none =>
    match operatorAttr name with
    | Option.some f => Except.ok f
    | Option.none =>
      Except.error ("AttributeError: module operator has no attribute " ++ name)

/-- Conjunction `all(f(obj) for f in fields)` over resolved child
predicates, with Python truthiness and error propagation. -/
def evalAllPreds (preds : List (α → Except String Value)) (obj : α) :
    Except String Value :=
  match preds with
  | [] => Except.ok (Value.bool true)
  | p :: ps =>
    match p obj with
    | Except.error e => Except.error e
    | Except.ok v =>
      if Value.truthy v then evalAllPreds ps obj else Except.ok (Value.bool false)

/-- Disjunction `any(f(obj) for f in fields)` over resolved child
predicates. -/
def evalAnyPreds (preds : List (α → Except String Value)) (obj : α) :
    Except String Value :=
  match preds with
  | [] => Except.ok (Value.bool false)
  | p :: ps =>
    match p obj with
    | Except.error e => Except.error e
    | Except.ok v =>
      if Value.truthy v then Except.ok (Value.bool true) else evalAnyPreds ps obj

/-- Coerce a resolved child back to a predicate.  In the source a
`LogicalOperation`'s children are typed as filter or logical operations
only, so the sort case cannot arise there. -/
def asPred : Resolved α → Except String (α → Except String Value)
  | Resolved.pred f => Except.ok f
  | Resolved.sortKw _ _ => Except.error ("TypeError: sort kwargs used as predicate")

mutual

/-- The `ObjectFilterResolver.resolve` method (objects.py lines 41-61):
logical operations resolve their children and combine them with
`all`/`any`; sort operations yield the `key`/`reverse` pair; filter
operations look the operator up (class dict, then the `operator` module)
and close over the field getter and the operation's values. -/
def resolveOp (getter : String → α → Value) : Operation → Except String (Resolved α)
  | Operation.logical op vs =>
    match resolveOpChildren getter vs with
    | Except.error e => Except.error e
    | Except.ok preds =>
      Except.ok (Resolved.pred (fun obj =>
        if op = "and" then evalAllPreds preds obj else evalAnyPreds preds obj))
  | Operation.sort f d => Except.ok (Resolved.sortKw (getter f) d)
  | Operation.filter f op v =>
    match lookupOp op with
    | Except.error e => Except.error e
    | Except.ok fn => Except.ok (Resolved.pred (fun obj => fn (getter f obj) v))

/-- Resolution of a logical operation's children
(`[self.resolve(f, **context) for f in operation.values]`), each child
coerced to a predicate. -/
def resolveOpChildren (getter : String → α → Value) :
    List Operation → Except String (List (α → Except String Value))
  | [] => Except.ok []
  | o :: os =>
    match resolveOp getter o with
    | Except.error e => Except.error e
    | Except.ok r =>
      match asPred r with
      | Except.error e => Except.error e
      | Except.ok p =>
        match resolveOpChildren getter os with
        | Except.error e => Except.error e
        | Except.ok ps => Except.ok (p :: ps)

end

/-- Resolution of a schema's top-level filter operations (objects.py line
66, `[self.resolve(op) for op in filter.filters]`), each a predicate. -/
def resolveTopFilters (getter : String → α → Value) :
    List Operation → Except String (List (α → Except String Value))
  | [] => Except.ok []
  | o :: os =>
    match resolveOp getter o with
    | Except.error e => Except.error e
    | Except.ok r =>
      match asPred r with
      | Except.error e => Except.error e
      | Except.ok p =>
        match resolveTopFilters getter os with
        | Except.error e => Except.error e
        | Except.ok ps => Except.ok (p :: ps)

/-- The list comprehension `[obj for obj in queryset if f(obj)]` with
`f = all` over the top-level predicates. -/
def filterObjs (preds : List (α → Except String Value)) :
    List α → Except String (List α)
  | [] => Except.ok []
  | o :: os =>
    match evalAllPreds preds o with
    | Except.error e => Except.error e
    | Except.ok v =>
      match filterObjs preds os with
      | Except.error e => Except.error e
      | Except.ok rest =>
        Except.ok (if Value.truthy v then o :: rest else rest)

/-- Stable insertion of `a` into an already sorted list: `a` is placed
before the first element `b` with `le a b`.  With `le a b` true on equal
keys this keeps earlier elements of the original list first, which is the
stability guarantee of Python's `list.sort`. -/
def insertStable (le : α → α → Bool) (a : α) : List α → List α
  | [] => [a]
  | b :: bs => if le a b then a :: b :: bs else b :: insertStable le a bs

/-- Stable sort by repeated insertion; agrees with Python's stable
`list.sort` for every total key comparison. -/
def stableSort (le : α → α → Bool) : List α → List α
  | [] => []
  | x :: xs => insertStable le x (stableSort le xs)

/-- Key comparison used by `queryset.sort(key=..., reverse=...)`:
ascending places `a` before `b` unless `key b < key a`; with
`reverse=True` it places `a` before `b` unless `key a < key b`.  Ties
keep original order in both cases (stability of `list.sort`). -/
def sortKeyLe (key : α → Value) (reverse : Bool) (a b : α) : Bool :=
  if reverse then !pyLtB (key a) (key b) else !pyLtB (key b) (key a)

/-- One pass of the ordering loop in `apply_filter` (objects.py lines
69-72): resolve the sort operation to its `key`/`reverse` pair and apply
one stable sort.  Only sort operations occur in `order_by`, so the other
branches are never taken. -/
def applySortPass (getter : String → α → Value) (l : List α) (op : Operation) :
    List α :=
  match resolveOp getter op with
  | Except.ok (Resolved.sortKw key rev) => stableSort (sortKeyLe key rev) l
  | _ => l

/-- The `ObjectFilterResolver.apply_filter` method (objects.py lines
63-76): build the conjunction of all top-level filter operations, filter
the list, then — the composed `Filter` class being both an
`OrderingFilter` and a `PaginationFilter` — apply one stable sort per
order-by entry in sequence, and finally slice
`[offset : offset + limit]` with `offset = (page - 1) * page_size` and
`limit = page_size`. -/
def apply_filter (getter : String → α → Value) (f : FilterInst) (queryset : List α) :
    Except String (List α) :=
  match resolveTopFilters getter (FilterInst.get_filters f) with
  | Except.error e => Except.error e
  | Except.ok preds =>
    match filterObjs preds queryset with
    | Except.error e => Except.error e
    | Except.ok filtered =>
      let sorted := (FilterInst.get_order_by f).foldl (applySortPass getter) filtered
      Except.ok ((sorted.drop ((f.page - 1) * f.page_size)).take f.page_size)

/-!
Test fixture from `tests/test_filters.py`: a `User` dataclass with `name`
and `age`, the `UserFilter` composed from `Filter` with
`ordering_fields = {"name", "age"}` and `search_fields = {"name"}`, and
the three users John(25), Jane(30), Alice(35).
-/

/-- The `User` dataclass of the test suite. -/
structure User where
  name : String
  age : Int

/-- Attribute getter for `User` (`operator.attrgetter`); only `name` and
`age` are ever requested. -/
def userGet (field : String) (u : User) : Value :=
  if field = "name" then Value.str u.name
  else if field = "age" then Value.int u.age
  else Value.none

/-- User John, aged 25. -/
def john : User := ⟨"John", 25⟩

/-- User Jane, aged 30. -/
def jane : User := ⟨"Jane", 30⟩

/-- User Alice, aged 35. -/
def alice : User := ⟨"Alice", 35⟩

/-- The `UserFilter` instance built by
`get_user_filter(sort=["name", "-age"])`: declared fields in pydantic
declaration order with their values (`page_size=10`, `page=1`,
`sort=["name", "-age"]`, `query=None`, `fields=None`, `name=None`,
`age=None`), the accumulated special fields of the composed `Filter`
class, and `search_fields = {"name"}`. -/
def c1Filter : FilterInst :=
  ⟨["page", "page_size", "sort", "query", "fields"],
   [("page_size", FieldValue.val (Value.int 10)),
    ("page", FieldValue.val (Value.int 1)),
    ("sort", FieldValue.val (Value.list [Value.str ("name"), Value.str ("-age")])),
    ("query", FieldValue.null),
    ("fields", FieldValue.null),
    ("name", FieldValue.null),
    ("age", FieldValue.null)],
   Option.none, ["name"], Option.some ["name", "-age"], 1, 10⟩

/-!
Helper lemmas about the model pass and prefix rewriting.
-/

/-- Prefix rewriting of a child list is the pointwise rewriting. -/
theorem prefixedList_eq_map (p : String) (l : List Operation) :
    prefixedList p l = l.map (prefixed p) := by
  induction l with
  | nil => rfl
  | cons o os ih => simp [prefixedList, ih]

/-- The model pass distributes over list append. -/
theorem modelFieldsOps_append (sp : List String) (l1 l2 : List (String × FieldValue)) :
    modelFieldsOps sp (l1 ++ l2) = modelFieldsOps sp l1 ++ modelFieldsOps sp l2 := by
  induction l1 with
  | nil => simp [modelFieldsOps]
  | cons nf rest ih =>
    cases nf with
    | mk n fv => simp [modelFieldsOps, ih]

/-- The model pass is the in-order concatenation of the per-field
contributions. -/
theorem modelFieldsOps_eq_flatMap (sp : List String) (fs : List (String × FieldValue)) :
    modelFieldsOps sp fs = fs.flatMap (fieldOpsAt sp) := by
  induction fs with
  | nil => rfl
  | cons nf rest ih =>
    cases nf with
    | mk n fv => simp [modelFieldsOps, fieldOpsAt, ih]

/-- C1: for the in-memory resolver's `apply_filter`, order-by entries are
applied as successive stable sorts, so the last-applied sort key
dominates: with users John(25), Jane(30), Alice(35) and
`sort=["name", "-age"]` the order-by list is `[name asc, age desc]` and
the result is exactly [Alice(35), Jane(30), John(25)]. -/
theorem claim_C1_sort_precedence :
    FilterInst.get_order_by c1Filter
      = [Operation.sort ("name") false, Operation.sort ("age") true]
  ∧ apply_filter userGet c1Filter [john, jane, alice]
      = Except.ok [alice, jane, john] :=
  ⟨rfl, rfl⟩

/-- C2: the dynamic operator dispatch of `ObjectFilterResolver.resolve`
does find the standard comparison functions `eq`, `ne`, `lt`, `le`,
`gt`, `ge` in the `operator` module, but the module has no attribute
named `in` or `not_in`, so resolving a filter operation with either of
those tokens fails with `AttributeError` instead of producing a
membership-test predicate. -/
theorem claim_C2_operator_dispatch :
    (resolveOp userGet (Operation.filter ("age") ("in")
        (Value.list [Value.int 25, Value.int 30]))).isOk = false
  ∧ (resolveOp userGet (Operation.filter ("age") ("not_in")
        (Value.list [Value.int 25, Value.int 30]))).isOk = false
  ∧ lookupOp ("in")
      = Except.error ("AttributeError: module operator has no attribute in")
  ∧ lookupOp ("not_in")
      = Except.error ("AttributeError: module operator has no attribute not_in")
  ∧ lookupOp ("eq") = Except.ok pyEq
  ∧ lookupOp ("ne") = Except.ok pyNe
  ∧ lookupOp ("lt") = Except.ok pyLt
  ∧ lookupOp ("le") = Except.ok pyLe
  ∧ lookupOp ("gt") = Except.ok pyGt
  ∧ lookupOp ("ge") = Except.ok pyGe :=
  ⟨rfl, rfl, rfl, rfl, rfl, rfl, rfl, rfl, rfl, rfl⟩

/-- C3 counterexample: a declared non-special field named `child` whose
name contains no `__` and whose value is non-null (a nested filter with
two set inner fields) contributes two operations, neither with field
`child` — not exactly one `eq` operation with that field name. -/
theorem claim_C3_counterexample :
    modelFieldsOps []
      [("child", FieldValue.nested []
        [("x", FieldValue.val (Value.int 1)), ("y", FieldValue.val (Value.int 2))])]
    = [Operation.filter ("child__x") ("eq") (Value.int 1),
       Operation.filter ("child__y") ("eq") (Value.int 2)]
  ∧ (modelFieldsOps []
      [("child", FieldValue.nested []
        [("x", FieldValue.val (Value.int 1)), ("y", FieldValue.val (Value.int 2))])]).length
    = 2 :=
  ⟨rfl, rfl⟩

/-- C3 (amended): a declared non-special field whose name contains no
`__` and whose value is non-null and not itself a nested filter schema
contributes exactly one `FilterOperation` with that field name, operator
`eq` and that value, at its position in declaration order; a null-valued
declared field contributes no operation. -/
theorem claim_C3_eq_derivation (sp : List String) (pre post : List (String × FieldValue))
    (n : String) (v : Value)
    (hn : sp.contains n = false) (hs : hasDunder n = false) :
    modelFieldsOps sp (pre ++ (n, FieldValue.val v) :: post)
      = modelFieldsOps sp pre
        ++ [Operation.filter n ("eq") v] ++ modelFieldsOps sp post
  ∧ modelFieldsOps sp (pre ++ (n, FieldValue.null) :: post)
      = modelFieldsOps sp pre ++ modelFieldsOps sp post := by
  have hn2 : ¬ n ∈ sp := by simpa using hn
  constructor
  · rw [modelFieldsOps_append]
    simp [modelFieldsOps, fieldContrib, hn2, hs]
  · rw [modelFieldsOps_append]
    simp [modelFieldsOps, fieldContrib, hn2]

/-- C3 witness: the schema of the spec example — one generic field
`name` with value `"John"` — yields exactly
`FilterOperation(field="name", operator="eq", values="John")`. -/
theorem claim_C3_witness :
    (["page"] : List String).contains ("name") = false
  ∧ hasDunder ("name") = false
  ∧ modelFieldsOps ["page"] [("name", FieldValue.val (Value.str ("John")))]
      = [Operation.filter ("name") ("eq") (Value.str ("John"))] := by
  refine ⟨rfl, rfl, ?_⟩
  have h := (claim_C3_eq_derivation ["page"] [] [] ("name")
    (Value.str ("John")) rfl rfl).1
  simpa [modelFieldsOps] using h

/-- C4: a declared field name containing `__` is split at the first
occurrence of `__` into `(field, operator)` by the generic compiler,
with no validation that the suffix names a recognized operator: the
emitted operation carries whatever suffix the name has. -/
theorem claim_C4_operator_suffix (sp : List String) (n : String) (v : Value)
    (hn : sp.contains n = false) (hs : hasDunder n = true) :
    modelFieldsOps sp [(n, FieldValue.val v)]
      = [Operation.filter (partitionDunder n).1 (partitionDunder n).2 v] := by
  have hn2 : ¬ n ∈ sp := by simpa using hn
  simp [modelFieldsOps, fieldContrib, hn2, hs]

/-- C4 witness: `age__gt: 18` yields
`FilterOperation(field="age", operator="gt", values=18)`; an
unrecognized suffix is passed through unvalidated; a name with two
separators is split at the first one. -/
theorem claim_C4_witness :
    modelFieldsOps [] [("age__gt", FieldValue.val (Value.int 18))]
      = [Operation.filter ("age") ("gt") (Value.int 18)]
  ∧ modelFieldsOps [] [("age__noSuchOperator", FieldValue.val (Value.int 18))]
      = [Operation.filter ("age") ("noSuchOperator") (Value.int 18)]
  ∧ modelFieldsOps [] [("a__b__c", FieldValue.val (Value.int 1))]
      = [Operation.filter ("a") ("b__c") (Value.int 1)] :=
  ⟨claim_C4_operator_suffix [] ("age__gt") (Value.int 18) rfl rfl,
   claim_C4_operator_suffix [] ("age__noSuchOperator") (Value.int 18) rfl rfl,
   claim_C4_operator_suffix [] ("a__b__c") (Value.int 1) rfl rfl⟩

/-- Token check helper: a sort list containing a token whose
`lstrip("+-")` is not among the ordering fields never validates. -/
theorem checkSortTokens_bad (of : List String) (fs : List String) (t : String)
    (hmem : t ∈ fs) (hbad : of.contains (lstripPlusMinus t) = false) :
    (checkSortTokens of fs).isOk = false := by
  induction fs with
  | nil => cases hmem
  | cons f rest ih =>
    unfold checkSortTokens
    by_cases hf : of.contains (lstripPlusMinus f) = true
    · rw [if_pos hf]
      rcases List.mem_cons.mp hmem with h | h
      · subst h
        rw [hf] at hbad
        exact Bool.noConfusion hbad
      · exact ih h
    · rw [if_neg hf]
      rfl

/-- C6: constructing a schema whose sort list contains a token that,
stripped of leading `+`/`-`, is not a declared ordering field fails the
`validate_sort` field validator, and therefore construction itself: no
such instance is ever produced to hand to a resolver. -/
theorem claim_C6_sort_validation (of fs : List String) (t : String)
    (hmem : t ∈ fs) (hbad : of.contains (lstripPlusMinus t) = false) :
    (validate_sort of (Option.some fs)).isOk = false
  ∧ ∀ (special : List String) (fields : List (String × FieldValue))
      (query : Option String) (sf : List String) (page psz : Nat),
      (constructFilter special fields query sf of (Option.some fs) page psz).isOk
        = false := by
  have hchk := checkSortTokens_bad of fs t hmem hbad
  have hv : validate_sort of (Option.some fs)
      = (checkSortTokens of fs).map (fun _ => Option.some fs) := rfl
  constructor
  · rw [hv]
    cases h : checkSortTokens of fs with
    | error e => rfl
    | ok u =>
      rw [h] at hchk
      exact Bool.noConfusion hchk
  · intro special fields query sf page psz
    have hc : constructFilter special fields query sf of (Option.some fs) page psz
        = (validate_sort of (Option.some fs)).map
            (fun s => ⟨special, fields, query, sf, s, page, psz⟩) := rfl
    rw [hc, hv]
    cases h : checkSortTokens of fs with
    | error e => rfl
    | ok u =>
      rw [h] at hchk
      exact Bool.noConfusion hchk

/-- C6 witness: `ordering_fields={"name"}` with `sort=["unknown"]` fails
construction. -/
theorem claim_C6_witness :
    (("unknown" : String) ∈ (["unknown"] : List String))
  ∧ (["name"] : List String).contains (lstripPlusMinus ("unknown")) = false
  ∧ (validate_sort ["name"] (Option.some ["unknown"])).isOk = false
  ∧ (constructFilter [] [] Option.none [] ["name"] (Option.some ["unknown"]) 1 10).isOk
      = false := by
  have h := claim_C6_sort_validation ["name"] ["unknown"] ("unknown")
    (List.mem_singleton.mpr rfl) rfl
  exact ⟨List.mem_singleton.mpr rfl, rfl, h.1, h.2 [] [] Option.none [] 1 10⟩

/-- C7: on a composed `Filter` schema with `query` set, `get_filters`
returns the generic model-pass operations — the in-order concatenation of
per-field contributions, one `eq` operation per plain-valued non-special
field — followed by the single search `LogicalOperation("or", ...)`
wrapping one `ilike` operation per search field, appended last. -/
theorem claim_C7_filters_order (F : FilterInst) (q : String)
    (hq : F.query = Option.some q) (hne : q.data.isEmpty = false) :
    FilterInst.get_filters F
      = F.fields.flatMap (fieldOpsAt F.special)
        ++ [Operation.logical ("or")
            (F.search_fields.map (fun n => Operation.filter n ("ilike") (Value.str q)))]
  ∧ ∀ (n : String) (v : Value), F.special.contains n = false → hasDunder n = false →
      fieldOpsAt F.special (n, FieldValue.val v) = [Operation.filter n ("eq") v] := by
  constructor
  · have h1 : FilterInst.get_filters F
        = searchFilters (Option.some q) F.search_fields
            (modelFieldsOps F.special F.fields) := by
      unfold FilterInst.get_filters
      rw [hq]
    rw [h1]
    unfold searchFilters
    simp [hne, modelFieldsOps_eq_flatMap]
  · intro n v hn hs
    have hn2 : ¬ n ∈ F.special := by simpa using hn
    simp [fieldOpsAt, fieldContrib, hn2, hs]

/-- C7 witness: a schema with one generic field `name="John"`, query
`"J"` and `search_fields={"name"}` compiles to the `eq` operation
followed by the search operation. -/
theorem claim_C7_witness :
    (FilterInst.mk ["page"] [("name", FieldValue.val (Value.str ("John")))]
        (Option.some ("J")) ["name"] Option.none 1 10).query = Option.some ("J")
  ∧ (("J" : String).data.isEmpty = false)
  ∧ FilterInst.get_filters
      (FilterInst.mk ["page"] [("name", FieldValue.val (Value.str ("John")))]
        (Option.some ("J")) ["name"] Option.none 1 10)
      = [Operation.filter ("name") ("eq") (Value.str ("John")),
         Operation.logical ("or") [Operation.filter ("name") ("ilike") (Value.str ("J"))]] := by
  refine ⟨rfl, rfl, ?_⟩
  have h := (claim_C7_filters_order
    (FilterInst.mk ["page"] [("name", FieldValue.val (Value.str ("John")))]
      (Option.some ("J")) ["name"] Option.none 1 10) ("J") rfl rfl).1
  simpa using h

/-- C8: a parent schema field named `child` holding a nested filter
schema with inner field `x` set yields the nested operation with field
`child__x` (whatever the inner value is), and `set_prefix` on a
`LogicalOperation` propagates the prefix to every child operation in its
values. -/
theorem claim_C8_nested_prefixing :
    (∀ v : Value,
      modelFieldsOps [] [("child", FieldValue.nested [] [("x", FieldValue.val v)])]
        = [Operation.filter ("child__x") ("eq") v])
  ∧ ∀ (p op : String) (vs : List Operation),
      prefixed p (Operation.logical op vs)
        = Operation.logical op (vs.map (prefixed p)) := by
  constructor
  · intro v; rfl
  · intro p op vs
    simp [prefixed, prefixedList_eq_map]

/-!
Embedding of the class-definition-time behaviour of
`BaseFilter.__init_subclass__` (models.py lines 13-25) across the class
definitions executed by importing models.py.

Python class attributes live on class objects and `cls.special_fields`
resolves through the MRO to the nearest ancestor that has the attribute
in its own dict; `cls.special_fields |= parents` then mutates that very
set object in place and re-binds the (same) object into `cls`'s dict.
The embedding models set objects as heap cells: `owns` records which
class dicts hold which cell, `heap` holds the cell contents.
-/

/-- The classes defined by models.py, plus pydantic's `BaseModel` (which
has no `special_fields` attribute). -/
inductive PyCls where
  | baseModel
  | baseFilter
  | modelFilter
  | basePag
  | pag
  | tokenPag
  | ordering
  | search
  | fieldsF
  | filterCls
deriving DecidableEq

/-- Method resolution order of each class, computed by C3 linearization
from the source's base lists (`Filter(PaginationFilter, OrderingFilter,
SearchFilter, FieldsFilter, ModelFilter)` and the single-inheritance
chains). -/
def mroOf : PyCls → List PyCls
  | PyCls.baseModel => [PyCls.baseModel]
  | PyCls.baseFilter => [PyCls.baseFilter, PyCls.baseModel]
  | PyCls.modelFilter => [PyCls.modelFilter, PyCls.baseFilter, PyCls.baseModel]
  | PyCls.basePag => [PyCls.basePag, PyCls.baseFilter, PyCls.baseModel]
  | PyCls.pag => [PyCls.pag, PyCls.basePag, PyCls.baseFilter, PyCls.baseModel]
  | PyCls.tokenPag => [PyCls.tokenPag, PyCls.basePag, PyCls.baseFilter, PyCls.baseModel]
  | PyCls.ordering => [PyCls.ordering, PyCls.baseFilter, PyCls.baseModel]
  | PyCls.search => [PyCls.search, PyCls.baseFilter, PyCls.baseModel]
  | PyCls.fieldsF => [PyCls.fieldsF, PyCls.baseFilter, PyCls.baseModel]
  | PyCls.filterCls =>
    [PyCls.filterCls, PyCls.pag, PyCls.basePag, PyCls.ordering, PyCls.search,
     PyCls.fieldsF, PyCls.modelFilter, PyCls.baseFilter, PyCls.baseModel]

/-- Class-object state: which class dicts bind `special_fields` to which
heap cell, and the current contents of each cell (a Python set modelled
as a list of its elements). -/
structure ClsState where
  owns : List (PyCls × Nat)
  heap : List (List String)

/-- Cell bound to `special_fields` in `c`'s own dict, if any. -/
def lookupOwn (st : ClsState) (c : PyCls) : Option Nat :=
  (st.owns.find? (fun p => p.1 == c)).map (fun p => p.2)

/-- Attribute resolution of `c.special_fields`: the first class along
`c`'s MRO whose dict binds the attribute. -/
def resolveCell (st : ClsState) (c : PyCls) : Option Nat :=
  (mroOf c).findSome? (lookupOwn st)

/-- Contents of heap cell `i`. -/
def cellSet (st : ClsState) (i : Nat) : List String := st.heap.getD i []

/-- Python `getattr(c, "special_fields", set())`. -/
def getattrSpecial (st : ClsState) (c : PyCls) : List String :=
  match resolveCell st c with
  | Option.some i => cellSet st i
  | Option.none => []

/-- Set union on the list model of Python sets. -/
def unionSets (a b : List String) : List String :=
  a ++ b.filter (fun x => !a.contains x)

/-- The loop of `__init_subclass__`: union of
`getattr(base, "special_fields", set())` over `cls.__mro__[1:]`. -/
def parentUnion (st : ClsState) (c : PyCls) : List String :=
  ((mroOf c).tail).foldl (fun acc b => unionSets acc (getattrSpecial st b)) []

/-- The statement `cls.special_fields |= parent_special_fields`: resolve
the attribute to a cell (the class's own cell if it declared one, else
the nearest ancestor's), mutate that cell in place with the union, and
bind the same cell into `cls`'s dict. -/
def runHook (st : ClsState) (c : PyCls) : ClsState :=
  match resolveCell st c with
  | Option.some i =>
    ⟨(c, i) :: st.owns, st.heap.set i (unionSets (cellSet st i) (parentUnion st c))⟩
  | Option.none => st

/-- Definition of one class: a `special_fields` declaration in the class
body allocates a fresh set object bound in the class dict; then
`BaseFilter.__init_subclass__` runs for the new class. -/
def defineCls (st : ClsState) (c : PyCls) (ownDecl : Option (List String)) : ClsState :=
  let st1 :=
    match ownDecl with
    | Option.some s => ⟨(c, st.heap.length) :: st.owns, st.heap ++ [s]⟩
    | Option.none => st
  runHook st1 c

/-- State after defining `BaseFilter` itself (its class body declares
`special_fields = set()`; defining `BaseFilter` does not run its own
`__init_subclass__`). -/
def initClsState : ClsState := ⟨[(PyCls.baseFilter, 0)], [[]]⟩

/-- The class definitions models.py executes, in source order, with the
`special_fields` set literal each class body declares. -/
def classDefs : List (PyCls × Option (List String)) :=
  [(PyCls.modelFilter, Option.none),
   (PyCls.basePag, Option.some ["page_size"]),
   (PyCls.pag, Option.some ["page"]),
   (PyCls.tokenPag, Option.some ["page_token"]),
   (PyCls.ordering, Option.some ["sort"]),
   (PyCls.search, Option.some ["query"]),
   (PyCls.fieldsF, Option.some ["fields"]),
   (PyCls.filterCls, Option.none)]

/-- Class-object state after importing models.py. -/
def modelsModuleState : ClsState :=
  classDefs.foldl (fun st p => defineCls st p.1 p.2) initClsState

/-- Equality of two list-modelled sets as sets. -/
def sameSet (a b : List String) : Bool :=
  a.all (fun x => b.contains x) && b.all (fun x => a.contains x)

/-- C10: after models.py defines the composed `Filter` class (which
declares no `special_fields` of its own), the `|=` in
`__init_subclass__` has mutated the inherited set object in place:
`PaginationFilter.special_fields` now equals
`{page, page_size, sort, query, fields}` — `sort`, `query` and `fields`
in addition to its own `page`, `page_size` — and `Filter.special_fields`
is the very same cell as `PaginationFilter.special_fields`. -/
theorem claim_C10_special_fields_mutation :
    sameSet (getattrSpecial modelsModuleState PyCls.pag)
      ["page", "page_size", "sort", "query", "fields"] = true
  ∧ resolveCell modelsModuleState PyCls.pag
      = resolveCell modelsModuleState PyCls.filterCls
  ∧ (["sort", "query", "fields"] : List String).all
      (fun x => (getattrSpecial modelsModuleState PyCls.pag).contains x) = true :=
  ⟨rfl, rfl, rfl⟩

/-!
Embedding of `fastapi_views/pagination.py` lines 19-27:
`encode_cursor(cursor) = base64.urlsafe_b64encode(cursor.encode()).decode()`
and `decode_cursor(cursor)`, which tries
`base64.urlsafe_b64decode(cursor.encode()).decode()` and returns the
input unchanged on `UnicodeDecodeError` or `ValueError`.

Bytes are modelled as `Nat` values below 256.  UTF-8 encoding/decoding
mirrors `str.encode()` / `bytes.decode()` (strict errors).  Base64
decoding mirrors CPython's non-strict `binascii.a2b_base64`: bytes
outside the base64 alphabet are silently discarded, `=` finishes a quad
once enough data characters were seen, and a leftover quad position at
the end raises `binascii.Error` (a `ValueError`).
-/

/-- UTF-8 encoding of one code point (`str.encode()` per character). -/
def utf8EncodeCp (c : Nat) : List Nat :=
  if c < 128 then [c]
  else if c < 2048 then [192 + c / 64, 128 + c % 64]
  else if c < 65536 then [224 + c / 4096, 128 + (c / 64) % 64, 128 + c % 64]
  else [240 + c / 262144, 128 + (c / 4096) % 64, 128 + (c / 64) % 64, 128 + c % 64]

/-- Python `s.encode()`: UTF-8 bytes of a string. -/
def utf8Encode (s : String) : List Nat :=
  s.data.flatMap (fun c => utf8EncodeCp c.toNat)

/-- Decoding of one UTF-8-encoded character: given the lead byte and the
following bytes, return the code point and the remaining bytes.  Rejects
stray or missing continuation bytes, overlong encodings, surrogate code
points and values above 0x10FFFF, exactly as CPython's strict codec. -/
def utf8DecodeOne (b : Nat) (bs : List Nat) : Option (Nat × List Nat) :=
  if b < 128 then Option.some (b, bs)
  else if b < 194 then Option.none
  else if b < 224 then
    match bs with
    | b1 :: rest =>
      if 128 ≤ b1 ∧ b1 < 192 then
        Option.some ((b - 192) * 64 + (b1 - 128), rest)
      else Option.none
    | [] => Option.none
  else if b < 240 then
    match bs with
    | b1 :: b2 :: rest =>
      if (if b = 224 then 160 ≤ b1 ∧ b1 < 192
          else if b = 237 then 128 ≤ b1 ∧ b1 < 160
          else 128 ≤ b1 ∧ b1 < 192) ∧ 128 ≤ b2 ∧ b2 < 192 then
        Option.some ((b - 224) * 4096 + (b1 - 128) * 64 + (b2 - 128), rest)
      else Option.none
    | _ => Option.none
  else if b < 245 then
    match bs with
    | b1 :: b2 :: b3 :: rest =>
      if (if b = 240 then 144 ≤ b1 ∧ b1 < 192
          else if b = 244 then 128 ≤ b1 ∧ b1 < 144
          else 128 ≤ b1 ∧ b1 < 192) ∧ 128 ≤ b2 ∧ b2 < 192 ∧ 128 ≤ b3 ∧ b3 < 192 then
        Option.some ((b - 240) * 262144 + (b1 - 128) * 4096
          + (b2 - 128) * 64 + (b3 - 128), rest)
      else Option.none
    | _ => Option.none
  else Option.none

/-- Strict UTF-8 decoding loop; the fuel argument only drives the
recursion and is always instantiated with the list length, which bounds
the number of characters. -/
def utf8DecodeLoop : Nat → List Nat → Option (List Nat)
  | _, [] => Option.some []
  | 0, _ :: _ => Option.none
  | fuel + 1, b :: bs =>
    match utf8DecodeOne b bs with
    | Option.some (cp, rest) => (utf8DecodeLoop fuel rest).map (fun r => cp :: r)
    | Option.none => Option.none

/-- Strict UTF-8 decoding to code points (`bytes.decode()`). -/
def utf8DecodeCps (bs : List Nat) : Option (List Nat) :=
  utf8DecodeLoop bs.length bs

/-- Python `bytes.decode()`: strict UTF-8 decoding to a string. -/
def utf8DecodeStr (bs : List Nat) : Option String :=
  (utf8DecodeCps bs).map (fun cps => ⟨cps.map Char.ofNat⟩)

/-- The standard base64 alphabet: sextet to ASCII byte. -/
def b64Char (n : Nat) : Nat :=
  if n < 26 then 65 + n
  else if n < 52 then 97 + (n - 26)
  else if n < 62 then 48 + (n - 52)
  else if n = 62 then 43
  else 47

/-- CPython's `table_a2b_base64`: ASCII byte back to sextet, `none` for
every byte outside the standard alphabet. -/
def b64DecByte (c : Nat) : Option Nat :=
  if 65 ≤ c ∧ c ≤ 90 then Option.some (c - 65)
  else if 97 ≤ c ∧ c ≤ 122 then Option.some (26 + (c - 97))
  else if 48 ≤ c ∧ c ≤ 57 then Option.some (52 + (c - 48))
  else if c = 43 then Option.some 62
  else if c = 47 then Option.some 63
  else Option.none

/-- Python `base64.b64encode`: three input bytes become four alphabet
bytes; a two-byte tail becomes three alphabet bytes and one `=` (61); a
one-byte tail becomes two alphabet bytes and two `=`. -/
def b64encode : List Nat → List Nat
  | a :: b :: c :: rest =>
    b64Char (a / 4) :: b64Char ((a % 4) * 16 + b / 16)
      :: b64Char ((b % 16) * 4 + c / 64) :: b64Char (c % 64) :: b64encode rest
  | [a, b] => [b64Char (a / 4), b64Char ((a % 4) * 16 + b / 16), b64Char ((b % 16) * 4), 61]
  | [a] => [b64Char (a / 4), b64Char ((a % 4) * 16), 61, 61]
  | [] => []

/-- The `urlsafe_b64encode` translation `+/` to `-_`. -/
def urlsafeEncByte (c : Nat) : Nat :=
  if c = 43 then 45 else if c = 47 then 95 else c

/-- The `urlsafe_b64decode` translation `-_` back to `+/`. -/
def urlsafeDecByte (c : Nat) : Nat :=
  if c = 45 then 43 else if c = 95 then 47 else c

/-- CPython's non-strict `binascii.a2b_base64` main loop, with state
`quad` (position in the current 4-character group), `left` (bits carried
from the previous character) and `pads` (consecutive padding count):
bytes outside the alphabet are discarded; `=` at quad position at least 2
finishes decoding successfully once the group is complete (any remaining
input is ignored) and is otherwise skipped; valid characters emit one
output byte from quad positions 1, 2 and 3; a non-zero quad position at
end of input raises `binascii.Error` (a `ValueError` in Python). -/
def a2bLoop : List Nat → Nat → Nat → Nat → Except String (List Nat)
  | [], quad, _, _ =>
    if quad = 0 then Except.ok []
    else if quad = 1 then
      Except.error ("binascii.Error: number of data characters cannot be 1 more than a multiple of 4")
    else Except.error ("binascii.Error: Incorrect padding")
  | c :: cs, quad, left, pads =>
    if c = 61 then
      if 2 ≤ quad then
        if 4 ≤ quad + pads + 1 then Except.ok []
        else a2bLoop cs quad left (pads + 1)
      else a2bLoop cs quad left pads
    else
      match b64DecByte c with
      | Option.none => a2bLoop cs quad left pads
      | Option.some d =>
        if quad = 0 then a2bLoop cs 1 d 0
        else if quad = 1 then
          (a2bLoop cs 2 (d % 16) 0).map (fun r => (left * 4 + d / 16) :: r)
        else if quad = 2 then
          (a2bLoop cs 3 (d % 4) 0).map (fun r => (left * 16 + d / 4) :: r)
        else (a2bLoop cs 0 0 0).map (fun r => (left * 64 + d) :: r)

/-- Python `binascii.a2b_base64` (non-strict). -/
def a2b_base64 (bs : List Nat) : Except String (List Nat) := a2bLoop bs 0 0 0

/-- The `encode_cursor` function (pagination.py lines 19-20):
`base64.urlsafe_b64encode(cursor.encode()).decode()`.  The final
`.decode()` cannot fail because base64 output is ASCII; the `none`
branch is unreachable. -/
def encode_cursor (s : String) : String :=
  match utf8DecodeStr ((b64encode (utf8Encode s)).map urlsafeEncByte) with
  | Option.some r => r
  | Option.none => ⟨[]⟩

/-- The `decode_cursor` function (pagination.py lines 23-27): translate
`-_` to `+/`, run the lenient base64 decoder, then strict UTF-8 decode;
on `ValueError` (from `a2b_base64`) or `UnicodeDecodeError` (from
`.decode()`) return the input unchanged. -/
def decode_cursor (s : String) : String :=
  match a2b_base64 ((utf8Encode s).map urlsafeDecByte) with
  | Except.error _ => s
  | Except.ok bytes =>
    match utf8DecodeStr bytes with
    | Option.some r => r
    | Option.none => s

/-- Printable ASCII strings: every character between space (32) and
tilde (126).  This is the "printable string" reading of the round-trip
property; every such character is a single UTF-8 byte. -/
def printableAscii (s : String) : Bool :=
  s.data.all (fun c => decide (32 ≤ c.toNat) && decide (c.toNat ≤ 126))

/-- Test for the inputs on which the decode pipeline raises (bad padding
among recognized characters, or bytes that are not valid UTF-8): exactly
the inputs `decode_cursor` hands back unchanged. -/
def decodeFails (s : String) : Bool :=
  match a2b_base64 ((utf8Encode s).map urlsafeDecByte) with
  | Except.error _ => true
  | Except.ok bytes => (utf8DecodeStr bytes).isNone

/-- Chunk induction principle following the 3-byte grouping of base64
encoding. -/
theorem list3_induction {α : Type} (P : List α → Prop) (h0 : P [])
    (h1 : ∀ a, P [a]) (h2 : ∀ a b, P [a, b])
    (h3 : ∀ a b c rest, P rest → P (a :: b :: c :: rest)) : ∀ l, P l := by
  have key : ∀ (n : Nat) (l : List α), l.length ≤ n → P l := by
    intro n
    induction n with
    | zero =>
      intro l hl
      cases l with
      | nil => exact h0
      | cons a as => simp at hl
    | succ n ih =>
      intro l hl
      match l with
      | [] => exact h0
      | [a] => exact h1 a
      | [a, b] => exact h2 a b
      | a :: b :: c :: rest =>
        refine h3 a b c rest (ih rest ?_)
        simp at hl
        omega
  exact fun l => key l.length l le_rfl

/-- Every alphabet byte is ASCII. -/
theorem b64Char_lt_128 (n : Nat) : b64Char n < 128 := by
  unfold b64Char
  split_ifs <;> omega

/-- No alphabet byte is the padding byte. -/
theorem b64Char_ne_61 (n : Nat) : b64Char n ≠ 61 := by
  unfold b64Char
  split_ifs <;> omega

/-- The decode table inverts the alphabet on sextets. -/
theorem b64DecByte_b64Char : ∀ n < 64, b64DecByte (b64Char n) = Option.some n := by
  decide

/-- The urlsafe translation pair is the identity on alphabet bytes. -/
theorem urlsafe_round_b64Char (n : Nat) :
    urlsafeDecByte (urlsafeEncByte (b64Char n)) = b64Char n := by
  unfold b64Char urlsafeEncByte urlsafeDecByte
  split_ifs <;> omega

/-- The urlsafe translation keeps bytes ASCII. -/
theorem urlsafeEncByte_lt_128 (b : Nat) (h : b < 128) : urlsafeEncByte b < 128 := by
  unfold urlsafeEncByte
  split_ifs <;> omega

/-- Elementwise property of base64 output: every emitted byte is an
alphabet byte or padding. -/
theorem b64encode_elem (P : Nat → Prop) (hc : ∀ n, P (b64Char n)) (hp : P 61) :
    ∀ bs, ∀ x ∈ b64encode bs, P x := by
  apply list3_induction (fun bs => ∀ x ∈ b64encode bs, P x)
  · intro x hx
    simp [b64encode] at hx
  · intro a x hx
    simp [b64encode] at hx
    rcases hx with h | h | h <;> subst h <;> first | exact hc _ | exact hp
  · intro a b x hx
    simp [b64encode] at hx
    rcases hx with h | h | h | h <;> subst h <;> first | exact hc _ | exact hp
  · intro a b c rest ih x hx
    simp [b64encode] at hx
    rcases hx with h | h | h | h | h
    · subst h; exact hc _
    · subst h; exact hc _
    · subst h; exact hc _
    · subst h; exact hc _
    · exact ih x h

/-- Base64 output is ASCII. -/
theorem b64encode_lt_128 (bs : List Nat) : ∀ x ∈ b64encode bs, x < 128 :=
  b64encode_elem (fun x => x < 128) b64Char_lt_128 (by omega) bs

/-- Translating base64 output to the urlsafe alphabet and back is the
identity. -/
theorem map_trans_round (bs : List Nat) :
    ((b64encode bs).map urlsafeEncByte).map urlsafeDecByte = b64encode bs := by
  have h : ∀ x ∈ b64encode bs, urlsafeDecByte (urlsafeEncByte x) = x :=
    b64encode_elem (fun x => urlsafeDecByte (urlsafeEncByte x) = x)
      urlsafe_round_b64Char rfl bs
  rw [List.map_map]
  calc (b64encode bs).map (urlsafeDecByte ∘ urlsafeEncByte)
      = (b64encode bs).map id := List.map_congr_left h
    _ = b64encode bs := List.map_id _

/-- ASCII byte lists decode to themselves under strict UTF-8. -/
theorem utf8DecodeCps_ascii (bs : List Nat) (h : ∀ b ∈ bs, b < 128) :
    utf8DecodeCps bs = Option.some bs := by
  induction bs with
  | nil => rfl
  | cons b rest ih =>
    have hb : b < 128 := h b (List.mem_cons_self b rest)
    have hr := ih (fun x hx => h x (List.mem_cons_of_mem b hx))
    have hone : utf8DecodeOne b rest = Option.some (b, rest) := by
      unfold utf8DecodeOne
      rw [if_pos hb]
    show utf8DecodeLoop (rest.length + 1) (b :: rest) = Option.some (b :: rest)
    simp only [utf8DecodeLoop, hone]
    rw [show utf8DecodeLoop rest.length rest = Option.some rest from hr]
    rfl

/-- ASCII character lists UTF-8 encode to their code points. -/
theorem utf8Encode_ascii_list (l : List Char) (h : ∀ c ∈ l, c.toNat < 128) :
    l.flatMap (fun c => utf8EncodeCp c.toNat) = l.map Char.toNat := by
  induction l with
  | nil => rfl
  | cons c cs ih =>
    have hc : c.toNat < 128 := h c (List.mem_cons_self c cs)
    have hr := ih (fun x hx => h x (List.mem_cons_of_mem c hx))
    have h1 : utf8EncodeCp c.toNat = [c.toNat] := by
      unfold utf8EncodeCp
      rw [if_pos hc]
    show utf8EncodeCp c.toNat ++ cs.flatMap (fun c => utf8EncodeCp c.toNat)
      = Char.toNat c :: cs.map Char.toNat
    rw [h1, hr]
    rfl

/-- Round trip of `Char.ofNat` on small code points. -/
theorem char_toNat_ofNat_small (b : Nat) (h : b < 55296) : (Char.ofNat b).toNat = b := by
  have hv : b.isValidChar := Or.inl h
  rw [Char.ofNat, dif_pos hv]
  rfl

/-- Round trip of `Char.toNat` for every character. -/
theorem char_ofNat_toNat (c : Char) : Char.ofNat c.toNat = c := by
  have hv : c.toNat.isValidChar := c.valid
  rw [Char.ofNat, dif_pos hv]
  exact Char.ext (UInt32.ext rfl)

/-- Unfolding of the `a2b_base64` loop at a padding byte. -/
theorem a2b_pad (cs : List Nat) (quad left pads : Nat) :
    a2bLoop (61 :: cs) quad left pads
      = if 2 ≤ quad then
          if 4 ≤ quad + pads + 1 then Except.ok []
          else a2bLoop cs quad left (pads + 1)
        else a2bLoop cs quad left pads := by
  simp only [a2bLoop, if_pos rfl]
  norm_num

/-- Unfolding of the `a2b_base64` loop at an alphabet byte. -/
theorem a2b_step (d : Nat) (hd : d < 64) (cs : List Nat) (quad left pads : Nat) :
    a2bLoop (b64Char d :: cs) quad left pads
      = if quad = 0 then a2bLoop cs 1 d 0
        else if quad = 1 then
          (a2bLoop cs 2 (d % 16) 0).map (fun r => (left * 4 + d / 16) :: r)
        else if quad = 2 then
          (a2bLoop cs 3 (d % 4) 0).map (fun r => (left * 16 + d / 4) :: r)
        else (a2bLoop cs 0 0 0).map (fun r => (left * 64 + d) :: r) := by
  have h61 : b64Char d ≠ 61 := b64Char_ne_61 d
  have hdec : b64DecByte (b64Char d) = Option.some d := b64DecByte_b64Char d hd
  simp only [a2bLoop, if_neg h61, hdec]

/-- The lenient decoder inverts the encoder on every byte list. -/
theorem a2b_b64encode (bs : List Nat) (h : ∀ b ∈ bs, b < 256) :
    a2bLoop (b64encode bs) 0 0 0 = Except.ok bs := by
  revert h
  refine list3_induction
    (fun bs => (∀ b ∈ bs, b < 256) → a2bLoop (b64encode bs) 0 0 0 = Except.ok bs)
    ?_ ?_ ?_ ?_ bs
  · intro _
    rfl
  · intro a h
    have ha : a < 256 := h a (by simp)
    show a2bLoop [b64Char (a / 4), b64Char (a % 4 * 16), 61, 61] 0 0 0 = Except.ok [a]
    rw [a2b_step (a / 4) (by omega)]
    norm_num
    rw [a2b_step (a % 4 * 16) (by omega)]
    norm_num
    rw [a2b_pad]
    norm_num
    rw [a2b_pad]
    norm_num [Except.map]
    omega
  · intro a b h
    have ha : a < 256 := h a (by simp)
    have hb : b < 256 := h b (by simp)
    show a2bLoop [b64Char (a / 4), b64Char (a % 4 * 16 + b / 16),
      b64Char (b % 16 * 4), 61] 0 0 0 = Except.ok [a, b]
    rw [a2b_step (a / 4) (by omega)]
    norm_num
    rw [a2b_step (a % 4 * 16 + b / 16) (by omega)]
    norm_num
    rw [a2b_step (b % 16 * 4) (by omega)]
    norm_num
    rw [a2b_pad]
    norm_num [Except.map]
    constructor
    · omega
    · omega
  · intro a b c rest ih h
    have ha : a < 256 := h a (by simp)
    have hb : b < 256 := h b (by simp)
    have hc : c < 256 := h c (by simp)
    have hrest := ih (fun x hx => h x (by simp [hx]))
    show a2bLoop (b64Char (a / 4) :: b64Char (a % 4 * 16 + b / 16)
      :: b64Char (b % 16 * 4 + c / 64) :: b64Char (c % 64) :: b64encode rest) 0 0 0
      = Except.ok (a :: b :: c :: rest)
    rw [a2b_step (a / 4) (by omega)]
    norm_num
    rw [a2b_step (a % 4 * 16 + b / 16) (by omega)]
    norm_num
    rw [a2b_step (b % 16 * 4 + c / 64) (by omega)]
    norm_num
    rw [a2b_step (c % 64) (by omega)]
    norm_num
    rw [hrest]
    norm_num [Except.map]
    refine ⟨by omega, by omega, by omega⟩

/-- C5 counterexample: the input `$` is not valid base64, yet
`decode_cursor` does not return it unchanged — the lenient decoder
discards the unrecognized byte and successfully decodes the empty
string. -/
theorem claim_C5_counterexample :
    decode_cursor ("$") = ""
  ∧ ("$" : String) ≠ ""
  ∧ decode_cursor ("$") ≠ ("$") :=
  ⟨rfl, by decide, by decide⟩

/-- Evaluation of `decode_cursor` when the pipeline succeeds. -/
theorem decode_cursor_ok (s : String) (B C : List Nat)
    (hA : a2b_base64 ((utf8Encode s).map urlsafeDecByte) = Except.ok B)
    (hB : utf8DecodeCps B = Option.some C) :
    decode_cursor s = ⟨C.map Char.ofNat⟩ := by
  unfold decode_cursor
  rw [hA]
  show (match utf8DecodeStr B with
        | Option.some r => r
        | Option.none => s) = ⟨C.map Char.ofNat⟩
  unfold utf8DecodeStr
  rw [hB]
  rfl

/-- Evaluation of `decode_cursor` when base64 decoding raises. -/
theorem decode_cursor_err (s e : String)
    (hA : a2b_base64 ((utf8Encode s).map urlsafeDecByte) = Except.error e) :
    decode_cursor s = s := by
  unfold decode_cursor
  rw [hA]

/-- Evaluation of `decode_cursor` when UTF-8 decoding raises. -/
theorem decode_cursor_badutf (s : String) (B : List Nat)
    (hA : a2b_base64 ((utf8Encode s).map urlsafeDecByte) = Except.ok B)
    (hB : utf8DecodeCps B = Option.none) :
    decode_cursor s = s := by
  unfold decode_cursor
  rw [hA]
  show (match utf8DecodeStr B with
        | Option.some r => r
        | Option.none => s) = s
  unfold utf8DecodeStr
  rw [hB]
  rfl

/-- C5 (amended): for every printable (ASCII) string the cursor encoding
round-trips, and every input on which the decode pipeline raises
(`binascii.Error` from padding, or a UTF-8 decode failure) is returned
unchanged; inputs containing non-alphabet bytes, however, are decoded
leniently (the bytes are discarded) and may come back different. -/
theorem claim_C5_cursor_round_trip :
    (∀ s : String, printableAscii s = true → decode_cursor (encode_cursor s) = s)
  ∧ (∀ s : String, decodeFails s = true → decode_cursor s = s) := by
  constructor
  · intro s hp
    have hchars : ∀ c ∈ s.data, c.toNat < 128 := by
      intro c hc
      have h2 := List.all_eq_true.mp hp c hc
      simp at h2
      omega
    have hEraw : utf8Encode s = s.data.map Char.toNat := utf8Encode_ascii_list s.data hchars
    have hbytes128 : ∀ b ∈ utf8Encode s, b < 128 := by
      rw [hEraw]
      intro b hb
      rcases List.mem_map.mp hb with ⟨c, hc, rfl⟩
      exact hchars c hc
    have hbytes256 : ∀ b ∈ utf8Encode s, b < 256 := by
      intro b hb
      have := hbytes128 b hb
      omega
    have hraw128 : ∀ x ∈ b64encode (utf8Encode s), x < 128 := b64encode_lt_128 _
    have henc128 : ∀ x ∈ (b64encode (utf8Encode s)).map urlsafeEncByte, x < 128 := by
      intro x hx
      rcases List.mem_map.mp hx with ⟨y, hy, rfl⟩
      exact urlsafeEncByte_lt_128 y (hraw128 y hy)
    have hdecEnc := utf8DecodeCps_ascii _ henc128
    have hEc : encode_cursor s
        = ⟨((b64encode (utf8Encode s)).map urlsafeEncByte).map Char.ofNat⟩ := by
      unfold encode_cursor utf8DecodeStr
      rw [hdecEnc]
      rfl
    have hReChars :
        ∀ c ∈ ((b64encode (utf8Encode s)).map urlsafeEncByte).map Char.ofNat,
          c.toNat < 128 := by
      intro c hc
      rcases List.mem_map.mp hc with ⟨b, hb, rfl⟩
      rw [char_toNat_ofNat_small b (by have := henc128 b hb; omega)]
      exact henc128 b hb
    have hReEnc :
        utf8Encode ⟨((b64encode (utf8Encode s)).map urlsafeEncByte).map Char.ofNat⟩
          = (b64encode (utf8Encode s)).map urlsafeEncByte := by
      have h1 := utf8Encode_ascii_list
        (((b64encode (utf8Encode s)).map urlsafeEncByte).map Char.ofNat) hReChars
      calc utf8Encode ⟨((b64encode (utf8Encode s)).map urlsafeEncByte).map Char.ofNat⟩
          = (((b64encode (utf8Encode s)).map urlsafeEncByte).map Char.ofNat).map
              Char.toNat := h1
        _ = (b64encode (utf8Encode s)).map urlsafeEncByte := by
            rw [List.map_map]
            have hid : ∀ b ∈ (b64encode (utf8Encode s)).map urlsafeEncByte,
                (Char.toNat ∘ Char.ofNat) b = id b := by
              intro b hb
              have hb128 := henc128 b hb
              simp only [Function.comp_apply, id_eq]
              exact char_toNat_ofNat_small b (by omega)
            rw [List.map_congr_left hid, List.map_id]
    have hA : a2b_base64
        ((utf8Encode ⟨((b64encode (utf8Encode s)).map urlsafeEncByte).map Char.ofNat⟩).map
          urlsafeDecByte)
        = Except.ok (utf8Encode s) := by
      rw [hReEnc, map_trans_round]
      exact a2b_b64encode _ hbytes256
    have hB : utf8DecodeCps (utf8Encode s) = Option.some (utf8Encode s) :=
      utf8DecodeCps_ascii _ hbytes128
    rw [hEc, decode_cursor_ok _ _ _ hA hB]
    rw [hEraw, List.map_map]
    have hid2 : ∀ c ∈ s.data, (Char.ofNat ∘ Char.toNat) c = id c := by
      intro c hc
      simp only [Function.comp_apply, id_eq]
      exact char_ofNat_toNat c
    rw [List.map_congr_left hid2, List.map_id]
  · intro s hf
    unfold decodeFails at hf
    cases ha : a2b_base64 ((utf8Encode s).map urlsafeDecByte) with
    | error e => exact decode_cursor_err s e ha
    | ok bytes =>
      rw [ha] at hf
      have hf2 : (utf8DecodeStr bytes).isNone = true := hf
      cases hd : utf8DecodeCps bytes with
      | some r =>
        have hds : utf8DecodeStr bytes = Option.some ⟨r.map Char.ofNat⟩ := by
          unfold utf8DecodeStr
          rw [hd]
          rfl
        rw [hds] at hf2
        simp [Option.isNone] at hf2
      | none => exact decode_cursor_badutf s bytes ha hd

/-- C5 witness: the printable string `abc` round-trips, and the
malformed input `A` (one data character, a padding error) is returned
unchanged. -/
theorem claim_C5_witness :
    printableAscii ("abc") = true
  ∧ decode_cursor (encode_cursor ("abc")) = "abc"
  ∧ decodeFails ("A") = true
  ∧ decode_cursor ("A") = "A" :=
  ⟨by decide, claim_C5_cursor_round_trip.1 ("abc") (by decide),
   by decide, claim_C5_cursor_round_trip.2 ("A") (by decide)⟩
